import Mathlib

/-!
# Verification of the `optionset` macro engine (`optionset/optionset.py`)

This file shallowly embeds the line-processing core of the `optionset`
utility and proves/refutes the frozen claims about it.

Strings are modelled as `List Char` (`Str`).  The Python regular
expressions of the source are compiled, regex by regex, into
deterministic scanners; each definition carries a comment naming the
source pattern it translates and, where Python backtracking could in
principle matter, why the deterministic scan coincides with it (no run
can usefully be shortened because the character classes involved are
pairwise disjoint or guarded by negative lookaheads that already failed
inside the run).

Modelling conventions:
* Python `\s` is ASCII whitespace (the scanned files are ASCII).
* `.` matches any character except `'\n'`.
* File lines are produced by `splitLines`, so `'\n'` occurs only as the
  final character of a line; the scanners are faithful on such lines.
* Calls into the general regex engine with *user-supplied* patterns
  (the variable-setting rewrites) are abstracted by a `RegexOracle`;
  everything else is concrete.
-/

set_option linter.unusedVariables false
set_option maxRecDepth 8192

namespace Optionset

/-- Strings as character lists. -/
abbrev Str := List Char

/-- Python `\s` on ASCII text: space, tab, newline, carriage return,
vertical tab, form feed. -/
def isPySpace (c : Char) : Bool :=
  c = ' ' || c = '\t' || c = '\n' || c = '\r' || c = '\x0b' || c = '\x0c'

/-- `ANY_WORD = r'[a-zA-Z0-9._\-\+]+'` — one character of the class. -/
def isWordChar (c : Char) : Bool :=
  (('a' ≤ c && c ≤ 'z') || ('A' ≤ c && c ≤ 'Z') || ('0' ≤ c && c ≤ '9')
   || c = '.' || c = '_' || c = '-' || c = '+')

/-- `BRACKETS = r'[()<>\[\]]'`. -/
def isBracketChar (c : Char) : Bool :=
  c = '(' || c = ')' || c = '<' || c = '>' || c = '[' || c = ']'

/-- `ANY_QUOTE = r'[\'"]'`. -/
def isQuoteChar (c : Char) : Bool :=
  c = '\'' || c = '"'

/-- `ANY_COMMENT_IND = r'(?://|[#%!]|--)'` matched at the head of `s`:
returns the matched indicator (alternation order `//`, `[#%!]`, `--`). -/
def matchAnyComInd : Str → Option Str
  | '/' :: '/' :: _ => some ['/', '/']
  | '#' :: _ => some ['#']
  | '%' :: _ => some ['%']
  | '!' :: _ => some ['!']
  | '-' :: '-' :: _ => some ['-', '-']
  | _ => none

/-- The five concrete comment indicators the detector can return. -/
def validComInds : List Str :=
  [['/', '/'], ['#'], ['%'], ['!'], ['-', '-']]

/-- `ANY_TAG = (?:(?!\s|ANY_COMMENT_IND|[*]|ANY_WORD|BRACKETS|ANY_QUOTE).)`
holds at the head of suffix `s`: the head character is consumed iff none
of the negative-lookahead alternatives matches at this position (the
comment-indicator alternative looks one character ahead, so `/` not
followed by `/` is a tag character while `//` is not). -/
def isTagStart : Str → Bool
  | [] => false
  | c :: rest =>
    !(isPySpace c) && (matchAnyComInd (c :: rest)).isNone && c ≠ '*'
      && !(isWordChar c) && !(isBracketChar c) && !(isQuoteChar c)

/-- Greedy `[*]*`: maximal run of stars (tag characters exclude `*`, so
shortening the run can never help the continuation). -/
def starRun : Str → Str × Str
  | '*' :: rest => ('*' :: (starRun rest).1, (starRun rest).2)
  | s => ([], s)

/-- Greedy `{tag}+`-style run: maximal run of characters whose suffix
satisfies `isTagStart` (each position carries its own lookahead). -/
def tagRun : Str → Str × Str
  | [] => ([], [])
  | c :: rest =>
    if isTagStart (c :: rest) then (c :: (tagRun rest).1, (tagRun rest).2)
    else ([], c :: rest)

/-- Greedy `ANY_WORD`-class run. -/
def wordRun : Str → Str × Str
  | [] => ([], [])
  | c :: rest =>
    if isWordChar c then (c :: (wordRun rest).1, (wordRun rest).2)
    else ([], c :: rest)

/-- Greedy `\s*` / `\s+` run. -/
def spaceRun : Str → Str × Str
  | [] => ([], [])
  | c :: rest =>
    if isPySpace c then (c :: (spaceRun rest).1, (spaceRun rest).2)
    else ([], c :: rest)

end Optionset

namespace Optionset

/-- One `(mtag, tag, raw_opt, setting)` capture of `ONLY_OPTN_SETTING =
r'({mtag}*)({tag}+)({raw_opt})\s+({setting})\s?'`. -/
structure RawAnn where
  mtag : Str
  tag : Str
  rawOpt : Str
  setting : Str
  deriving Repr, DecidableEq

/-- The var-setting body `.+{ANY_QUOTE}` with greedy `.+`: consume the
longest prefix of non-newline characters that ends just before a quote;
returns (consumed text including the closing quote, rest).  Greedy means
the *last* admissible quote closes the literal. -/
def goVarG : Str → Option (Str × Str)
  | [] => none
  | c :: rest =>
    if c = '\n' then none
    else
      match goVarG rest with
      | some (t, r) => some (c :: t, r)
      | none => if isQuoteChar c then some ([c], rest) else none

/-- `.+{ANY_QUOTE}`: at least one `.` character before the closing quote. -/
def varBodyG (s : Str) : Option (Str × Str) :=
  match s with
  | [] => none
  | c :: rest =>
    if c = '\n' then none
    else (goVarG rest).map (fun p => (c :: p.1, p.2))

/-- `ANY_SETTING = (?:ANY_WORD|ANY_VAR_SETTING)` matched greedily at the
head (for `findall`, where the trailing `\s?` cannot fail).  The two
alternatives are disjoint on their first character (`=` is not a word
character), so no cross-alternative backtracking occurs. -/
def matchSettingG : Str → Option (Str × Str)
  | [] => none
  | s@(c :: _) =>
    if isWordChar c then
      let (w, r) := wordRun s
      some (w, r)
    else
      match s with
      | '=' :: q :: rest =>
        if isQuoteChar q then
          (varBodyG rest).map (fun p => ('=' :: q :: p.1, p.2))
        else none
      | _ => none

/-- One match of `ONLY_OPTN_SETTING` anchored at the head of `s`:
stars, then a nonempty tag run, a nonempty word run (`raw_opt`), spaces,
a setting, and an optional trailing space (`\s?`, consumed when present).
Each greedy run is maximal; shortening any of them would place the next
component on a character of the run's own class, which the next
component's class excludes, so the maximal parse is complete. -/
def matchOptnSettingAt (s : Str) : Option (RawAnn × Str) :=
  let stars := (starRun s).1
  let s1 := (starRun s).2
  let tags := (tagRun s1).1
  let s2 := (tagRun s1).2
  if tags.isEmpty then none else
  let w := (wordRun s2).1
  let s3 := (wordRun s2).2
  if w.isEmpty then none else
  let sp := (spaceRun s3).1
  let s4 := (spaceRun s3).2
  if sp.isEmpty then none else
  match matchSettingG s4 with
  | none => none
  | some (st, s5) =>
    let s6 := match s5 with
      | c :: r => if isPySpace c then r else s5
      | [] => s5
    some (⟨stars, tags, w, st⟩, s6)

/-- `re.findall(ONLY_OPTN_SETTING, s)`: scan left to right, restarting
one character later after a failed anchor, or after the consumed text of
a successful match.  Fuelled (the fuel `s.length` is always sufficient:
every step consumes at least one character). -/
def findallGo : Nat → Str → List RawAnn
  | 0, _ => []
  | _ + 1, [] => []
  | fuel + 1, s@(c :: rest) =>
    match matchOptnSettingAt s with
    | some (a, s') => a :: findallGo fuel s'
    | none => findallGo fuel rest

/-- All annotation matches of `ONLY_OPTN_SETTING` in `s`. -/
def findallOptnSetting (s : Str) : List RawAnn :=
  findallGo s.length s

/-- Var-setting body followed by the *required* `\s` of `WHOLE_COMMENT`
(`{setting}\s`): some closing quote at index ≥ 1 is immediately followed
by a whitespace character, every character before it being non-newline
(backtracking over the greedy `.+` tries every admissible closing
quote, so plain existence is the right condition for a match). -/
def goVarSp : Str → Bool
  | [] => false
  | c :: rest =>
    (isQuoteChar c && (match rest with | r :: _ => isPySpace r | [] => false))
      || (c ≠ '\n' && goVarSp rest)

/-- `{setting}\s` at the head of `s` (the `WHOLE_COMMENT` variant, where
a whitespace character must follow the setting). -/
def matchSettingSp : Str → Bool
  | [] => false
  | s@(c :: _) =>
    if isWordChar c then
      let (_, r) := wordRun s
      match r with | rc :: _ => isPySpace rc | [] => false
    else
      match s with
      | '=' :: q :: rest =>
        isQuoteChar q &&
          (match rest with
           | [] => false
           | c0 :: rest0 => c0 ≠ '\n' && goVarSp rest0)
      | _ => false

/-- `\s+{mtag}*{tag}+{raw_opt}\s+{setting}\s` anchored at the head. -/
def annoAt (s : Str) : Bool :=
  let (sp, s1) := spaceRun s
  if sp.isEmpty then false else
  let (_, s2) := starRun s1
  let (tags, s3) := tagRun s2
  if tags.isEmpty then false else
  let (w, s4) := wordRun s3
  if w.isEmpty then false else
  let (sp2, s5) := spaceRun s4
  if sp2.isEmpty then false else
  matchSettingSp s5

/-- Whether `WHOLE_COMMENT`'s body
`.*\s+{mtag}*{tag}+{raw_opt}\s+{setting}\s.*\n?` matches `s`: some
position reachable through non-newline characters (`.*`) starts a full
annotation.  When it does, the captured `whole_com` is all of `s` (the
trailing `.*\n?` extends to the end of the line). -/
def hasAnno : Str → Bool
  | [] => false
  | s@(c :: rest) => annoAt s || (c ≠ '\n' && hasAnno rest)

/-- Split at the first position where `c` occurs as a prefix of the
suffix: returns (text before the occurrence, suffix starting with `c`). -/
def splitAtOccur (c : Str) (s : Str) : Option (Str × Str) :=
  if c.isPrefixOf s then some ([], s)
  else
    match s with
    | [] => none
    | x :: rest => (splitAtOccur c rest).map (fun p => (x :: p.1, p.2))

/-- `nested_com_inds = (\s*{com_ind}){n}`: `n` repetitions of maximal
whitespace followed by the literal indicator (the indicator's first
character is never whitespace, so each repetition is deterministic). -/
def matchNestedReps (c : Str) : Nat → Str → Option (Str × Str)
  | 0, s => some ([], s)
  | n + 1, s =>
    let (sp, s1) := spaceRun s
    if c.isPrefixOf s1 then
      (matchNestedReps c n (s1.drop c.length)).map
        (fun p => (sp ++ c ++ p.1, p.2))
    else none

/-- Captured groups of a `COMMD_LINE`/`UNCOMMD_LINE` match. -/
structure LineShape where
  nestedComInds : Str
  nonCom : Str
  wholeCom : Str
  fComment : Bool
  deriving Repr, DecidableEq

/-- `COMMD_LINE`: nested prefix, then `non_com = \s*{c}(?:(?!{c}).)+`,
then the indicator again, then a `WHOLE_COMMENT` body.  The inner run
stops at the first later occurrence of the indicator (the negative
lookahead forbids the run to cross it, and the run's interior positions
cannot satisfy the subsequent literal), so the split is deterministic. -/
def matchCommd (c : Str) (n : Nat) (line : Str) : Option LineShape :=
  match matchNestedReps c n line with
  | none => none
  | some (pre, r1) =>
    let (sp, r2) := spaceRun r1
    if c.isPrefixOf r2 then
      let r3 := r2.drop c.length
      match splitAtOccur c r3 with
      | none => none
      | some (mid, r4) =>
        if mid.isEmpty || mid.any (· = '\n') then none
        else
          let wc := r4.drop c.length
          if hasAnno wc then some ⟨pre, sp ++ c ++ mid, wc, true⟩ else none
    else none

/-- `UNCOMMD_LINE`: nested prefix, `non_com = \s*(?:(?!{c}).)+` (all text
up to the first occurrence of the indicator, nonempty), the indicator,
then a `WHOLE_COMMENT` body. -/
def matchUncommd (c : Str) (n : Nat) (line : Str) : Option LineShape :=
  match matchNestedReps c n line with
  | none => none
  | some (pre, r1) =>
    match splitAtOccur c r1 with
    | none => none
    | some (nc, r2) =>
      if nc.isEmpty || nc.any (· = '\n') then none
      else
        let wc := r2.drop c.length
        if hasAnno wc then some ⟨pre, nc, wc, false⟩ else none

/-- Lines 908-918 of `_process_line`: the commented pattern is searched
first; an uncommented match is only used when the commented one fails;
otherwise all captures are empty and `f_comment` is false. -/
def classifyLine (c : Str) (n : Nat) (line : Str) : Option LineShape :=
  match matchCommd c n line with
  | some p => some p
  | none => matchUncommd c n line

/-- `_uncomment`: `re.sub(rf'^(\s*)({com_ind})', r"\1", line)` — strip
one leading comment indicator, preserving the leading whitespace (the
indicator's first character is not whitespace, so the greedy `\s*` is
deterministic, and the anchored pattern replaces at most once). -/
def uncommentLine (comInd line : Str) : Str :=
  let sp := line.takeWhile isPySpace
  let rest := line.dropWhile isPySpace
  if comInd.isPrefixOf rest then sp ++ rest.drop comInd.length else line

/-- `_comment`: prepend the comment indicator at column 0. -/
def commentLine (comInd line : Str) : Str := comInd ++ line

end Optionset

namespace Optionset

/-- Values stored in the two-level availability databases: Python's
`None` (unset / the `Both` state), `True`/`False` (active/inactive),
the string `'?'` (ambiguous) and the string `'='` (variable value). -/
inductive PyVal where
  | pyNone
  | pyBool (b : Bool)
  | qmark
  | eqSign
  deriving Repr, DecidableEq

/-- Insertion-ordered dictionary update: overwrite in place, or append a
new key at the end (Python `dict` semantics). -/
def setAssoc {α β : Type} [DecidableEq α] (k : α) (v : β) :
    List (α × β) → List (α × β)
  | [] => [(k, v)]
  | (k', v') :: rest =>
    if k' = k then (k, v) :: rest else (k', v') :: setAssoc k v rest

/-- Dictionary lookup. -/
def getAssoc {α β : Type} [DecidableEq α] (k : α) :
    List (α × β) → Option β
  | [] => none
  | (k', v') :: rest => if k' = k then some v' else getAssoc k rest

/-- `dict.pop(k)` (the caller has already checked the key exists). -/
def eraseAssoc {α β : Type} [DecidableEq α] (k : α) :
    List (α × β) → List (α × β)
  | [] => []
  | (k', v') :: rest =>
    if k' = k then rest else (k', v') :: eraseAssoc k rest

/-- Inner maps of an availability database: setting → state, in
insertion order. -/
abbrev SettingsMap := List (Str × PyVal)

/-- `defaultdict(lambda: defaultdict(lambda: None))`: option → settings
map, in insertion order. -/
abbrev OptnsDb := List (Str × SettingsMap)

/-- Reading `db[optn][setting]` through the two-level `defaultdict`
*inserts* any missing key with default `None`; this is observable in the
final singleton filter, which counts inserted-but-`None` settings. -/
def dbReadCreate (db : OptnsDb) (optn setting : Str) : OptnsDb × PyVal :=
  match getAssoc optn db with
  | none => (setAssoc optn [(setting, PyVal.pyNone)] db, PyVal.pyNone)
  | some m =>
    match getAssoc setting m with
    | none => (setAssoc optn (setAssoc setting PyVal.pyNone m) db, PyVal.pyNone)
    | some v => (db, v)

/-- `db[optn][setting] = v`. -/
def dbWrite (db : OptnsDb) (optn setting : Str) (v : PyVal) : OptnsDb :=
  match getAssoc optn db with
  | none => setAssoc optn [(setting, v)] db
  | some m => setAssoc optn (setAssoc setting v m) db

/-- Lines 1016-1024 of `_process_line`: the availability state table.
`cur` is the stored state, `count` the inline occurrence count of the
option on this line, `fComment` whether the line is commented.
* unset (`None`) with count > 1 → `None` (the `Both` state);
* unset with count 1 → `True` (uncommented) / `False` (commented);
* any set state disagreeing with the new observation → `'?'`;
* agreeing observation → unchanged (`'?'` never equals a boolean, so
  ambiguous absorbs every further observation). -/
def updateAvailEntry (cur : PyVal) (count : Nat) (fComment : Bool) : PyVal :=
  match cur with
  | PyVal.pyNone => if count > 1 then PyVal.pyNone else PyVal.pyBool (!fComment)
  | v => if v ≠ PyVal.pyBool (!fComment) then PyVal.qmark else v

/-- `re.search(ANY_VAR_SETTING, s)` for
`ANY_VAR_SETTING = rf'\={ANY_QUOTE}.+{ANY_QUOTE}'`: an unanchored search
for `=`, a quote, at least one non-newline character, and a quote. -/
def matchVarAt : Str → Bool
  | '=' :: q :: rest => isQuoteChar q && (varBodyG rest).isSome
  | _ => false

/-- Unanchored `re.search` over every start position. -/
def isVarSetting : Str → Bool
  | [] => false
  | s@(_ :: rest) => matchVarAt s || isVarSetting rest

/-- `_strip_setting_regex`: `setting_str[2:-1]` removes the leading
`='` and the trailing quote. -/
def stripSettingRegex (s : Str) : Str := (s.drop 2).dropLast

/-- The lazy tail of one `([^\\]\(.*?[^\\]\))` match: find the first
pair (non-backslash, `)`) reachable through non-newline characters;
returns the remainder after the closing parenthesis. -/
def lazyClose : Str → Option Str
  | x :: y :: rest =>
    if x ≠ '\\' && y = ')' then some rest
    else if x ≠ '\n' then lazyClose (y :: rest) else none
  | _ => none

/-- `re.findall(r'([^\\]\(.*?[^\\]\))', s)` match count: non-overlapping
scan; a match needs a non-backslash character *before* `(` (so a group
whose `(` starts the string is never counted) and likewise before `)`. -/
def findGroupsGo : Nat → Str → Nat
  | 0, _ => 0
  | _ + 1, [] => 0
  | _ + 1, [_] => 0
  | fuel + 1, a :: b :: rest =>
    if a ≠ '\\' && b = '(' then
      match lazyClose rest with
      | some r => 1 + findGroupsGo fuel r
      | none => findGroupsGo fuel (b :: rest)
    else findGroupsGo fuel (b :: rest)

/-- Number of group matches found by `_check_varop_groups`'s `findall`. -/
def findGroupsCount (s : Str) : Nat := findGroupsGo s.length s

/-- `_check_varop_groups`: `true` = accepted (`return None`); `false` =
the `AttributeError` path (zero matches, or more than one). -/
def checkVaropGroups (s : Str) : Bool := findGroupsCount s = 1

/-- The behavior of Python's regex engine on *user-supplied* variable
setting patterns, abstracted.  `searchGroup1 pat text` models
`re.search(pat, text).group(1)`, with `none` for a failed search or
missing group (both raise and exit).  `sub3 l m r repl text` models
`re.sub('(' + l + ')' + m + '(' + r + ')', \1 ++ repl ++ \3, text)` as
performed by `_set_var_optn`. -/
structure RegexOracle where
  searchGroup1 : Str → Str → Option Str
  sub3 : Str → Str → Str → Str → Str → Str

/-- `_parse_inline_regex`: strip the `='…'` wrapper, validate the group
count, then capture group 1 of the user regex within `non_com`.  `none`
is the `AttributeError`/`IndexError` path: the error is printed and the
process exits. -/
def parseInlineRegex (o : RegexOracle) (nonCom setting : Str) : Option Str :=
  let inlineRe := stripSettingRegex setting
  if checkVaropGroups inlineRe then o.searchGroup1 inlineRe nonCom else none

/-- Index of the first `t` preceded by a non-backslash character
(`re.search(r'[^\\]([\(])', s).start() + 1`; `none` raises
`AttributeError` in the caller). -/
def firstUnescIdx (t : Char) : Str → Option Nat
  | a :: b :: rest =>
    if a ≠ '\\' && b = t then some 1
    else (firstUnescIdx t (b :: rest)).map (· + 1)
  | _ => none

/-- `_add_left_right_groups`: split the inline regex at the positions of
its first unescaped `(` and `)` into `left`, `mid` (the original group,
parentheses included) and `right`, to be reassembled as
`({left}){mid}({right})`. -/
def addLeftRightGroups (s : Str) : Option (Str × Str × Str) :=
  match firstUnescIdx '(' s, firstUnescIdx ')' s with
  | some lp, some rp =>
    some (s.take lp, (s.drop lp).take (rp + 1 - lp), s.drop (rp + 1))
  | _, _ => none

/-- `_set_var_optn`: regroup the inline regex, substitute the user's
replacement for the captured group inside `non_com`, and reassemble
`nested_com_inds + new_non_com + com_ind + whole_com`.  `none` is the
`AttributeError` path of `_add_left_right_groups` (caught by the
caller's error handler, which exits). -/
def setVarOptn (o : RegexOracle)
    (comInd strToReplace setting nestedComInds nonCom wholeCom : Str) :
    Option Str :=
  let inlineRe := stripSettingRegex setting
  match addLeftRightGroups inlineRe with
  | none => none
  | some (l, m, r) =>
    some (nestedComInds ++ o.sub3 l m r strToReplace nonCom ++ comInd ++ wholeCom)

end Optionset

namespace Optionset

/-- The user's request, as produced by `_parse_and_check_input`
(`InputDb` namedtuple). -/
structure InputDb where
  tag : Str
  rawOpt : Str
  setting : Str
  fAvailable : Bool
  fShowfiles : Bool
  fBashcomp : Bool
  renameOptn : Str
  renameSetting : Str
  maxFlines : Nat
  maxFsizeKb : Nat
  deriving Repr, DecidableEq

/-- The mutable per-file state of `FileVarsDatabase` (the regex
dictionary is implicit: `nested_com_inds` is recomputed from
`nestedLvl` each line). -/
structure FileVars where
  filepath : Str
  fFilemodified : Bool
  fMultilineActive : Bool
  fMulticommd : Option Bool
  nestedLvl : Int
  nestedIncrement : Int
  comInd : Str
  nestedOptnDb : List (Int × Str)
  deriving Repr, DecidableEq

/-- `defaultdict(bool/int)` lookups used for the per-line maps. -/
def lookupCount (m : List (Str × Nat)) (k : Str) : Nat :=
  (getAssoc k m).getD 0

/-- Lookup with Python's `defaultdict(lambda: False)` default. -/
def lookupFlag (m : List (Str × Bool)) (k : Str) : Bool :=
  (getAssoc k m).getD false

/-- State built by the first annotation loop of `_process_line`
(lines 931-941). -/
structure InlineInfo where
  count : List (Str × Nat)
  optnMatch : List (Str × Bool)
  settingMatch : List (Str × Bool)
  fOptn : Bool
  fSetting : Bool
  sdb : OptnsDb
  deriving Repr, DecidableEq

/-- One step of the first annotation loop: record the file for
show-files mode, count the option, and set the option/setting match
flags when the user's (backslash-stripped) request coincides with this
annotation. -/
def inlineStep (inp : InputDb) (filepath : Str) (i : InlineInfo)
    (a : RawAnn) : InlineInfo :=
  let key := a.tag ++ a.rawOpt
  let i := if inp.fShowfiles then
      { i with sdb := dbWrite i.sdb key filepath (PyVal.pyBool true) }
    else i
  let i := { i with count := setAssoc key (lookupCount i.count key + 1) i.count }
  if (inp.tag ++ inp.rawOpt).filter (· ≠ '\\') = key then
    let i := { i with optnMatch := setAssoc key true i.optnMatch, fOptn := true }
    if inp.setting.filter (· ≠ '\\') = a.setting then
      { i with settingMatch := setAssoc key true i.settingMatch, fSetting := true }
    else i
  else i

/-- `((?:\s|$))` — group 5 of `INLINE_OPTN_SETTING`: one whitespace
character (consumed), or the zero-width `$` at the very end.  Returns
(matched text, rest). -/
def matchG5 : Str → Option (Str × Str)
  | [] => some ([], [])
  | c :: rest => if isPySpace c then some ([c], rest) else none

/-- `({setting})((?:\s|$))` with `setting = ANY_SETTING` (used when
renaming an option): a maximal word run, or a var-setting literal whose
closing quote (the greedy `.+` backtracks over candidate quotes) is
followed by whitespace or the end. -/
def goVarG5 : Str → Option (Str × Str)
  | [] => none
  | c :: rest =>
    if c = '\n' then none
    else
      match goVarG5 rest with
      | some (t, r) => some (c :: t, r)
      | none =>
        if isQuoteChar c && (matchG5 rest).isSome then some ([c], rest)
        else none

/-- `ANY_SETTING` followed by group 5, anchored at the head; returns
(setting text, group-5 text, rest). -/
def matchAnySettingG5 (s : Str) : Option (Str × Str × Str) :=
  match s with
  | [] => none
  | c :: _ =>
    if isWordChar c then
      let (w, r) := wordRun s
      match matchG5 r with
      | some (g5, r') => some (w, g5, r')
      | none => none
    else
      match s with
      | '=' :: q :: rest =>
        if isQuoteChar q then
          match rest with
          | [] => none
          | c0 :: rest0 =>
            if c0 = '\n' then none
            else
              match goVarG5 rest0 with
              | some (t, r) =>
                match matchG5 r with
                | some (g5, r') => some ('=' :: q :: c0 :: t, g5, r')
                | none => none
              | none => none
        else none
      | _ => none

/-- Greedy `(\s+)` followed by the *literal* setting string (used when
renaming a setting: the pattern embeds the user's setting verbatim, here
modelled as a literal — the concrete claims only instantiate it with
metacharacter-free settings).  The spaces are tried longest-first, since
a user setting may itself begin with spaces.  `rsp` is the reversed
candidate space run. -/
def g3LitRev (lit : Str) : Str → Str → Option (Str × Str)
  | [], _ => none
  | c :: rest, r =>
    if lit.isPrefixOf r then some ((c :: rest).reverse, r.drop lit.length)
    else g3LitRev lit rest (c :: r)

/-- One anchored match of `INLINE_OPTN_SETTING` formatted with
`option = target` (a literal after regex-escaping) and
`setting = ANY_SETTING`: `((?:\s|[*]))(option)(\s+)(ANY_SETTING)((?:\s|$))`.
Returns the five groups' texts and the rest. -/
def matchInlineOptnAt (target : Str) (s : Str) :
    Option (Str × Str × Str × Str × Str × Str) :=
  match s with
  | [] => none
  | c :: rest =>
    if isPySpace c || c = '*' then
      if target.isPrefixOf rest then
        let r1 := rest.drop target.length
        let (sps, r2) := spaceRun r1
        if sps.isEmpty then none
        else
          match matchAnySettingG5 r2 with
          | some (st, g5, r3) => some ([c], target, sps, st, g5, r3)
          | none => none
      else none
    else none

/-- `re.sub(INLINE_OPTN_SETTING.format(option=…, setting=ANY_SETTING),
rf"\1{rename_optn}\3\4\5", whole_com)` — the option-rename rewrite:
every non-overlapping match has its option replaced, neighbouring
whitespace preserved. -/
def renameOptnSubGo (target repl : Str) : Nat → Str → Str
  | 0, s => s
  | _ + 1, [] => []
  | fuel + 1, s@(c :: rest) =>
    match matchInlineOptnAt target s with
    | some (g1, _, g3, g4, g5, r) =>
      g1 ++ repl ++ g3 ++ g4 ++ g5 ++ renameOptnSubGo target repl fuel r
    | none => c :: renameOptnSubGo target repl fuel rest

/-- Fuelled driver for the option-rename substitution. -/
def renameOptnSub (target repl s : Str) : Str :=
  renameOptnSubGo target repl s.length s

/-- One anchored match of `INLINE_OPTN_SETTING` formatted with
`option = optn` and `setting = inp.setting` (both literals after
escaping/stripping): `((?:\s|[*]))(optn)(\s+)(setting)((?:\s|$))`. -/
def matchInlineSettingAt (optn settingLit : Str) (s : Str) :
    Option (Str × Str × Str × Str × Str × Str) :=
  match s with
  | [] => none
  | c :: rest =>
    if isPySpace c || c = '*' then
      if optn.isPrefixOf rest then
        let r1 := rest.drop optn.length
        let (sps, r2) := spaceRun r1
        match g3LitRev settingLit sps.reverse r2 with
        | some (g3, r3) =>
          match matchG5 r3 with
          | some (g5, r4) => some ([c], optn, g3, settingLit, g5, r4)
          | none => none
        | none => none
      else none
    else none

/-- `re.sub(INLINE_OPTN_SETTING.format(option=…, setting=inp.setting),
rf"\1\2\3{rename_setting}\5", whole_com)` — the setting-rename rewrite. -/
def renameSettingSubGo (optn settingLit repl : Str) : Nat → Str → Str
  | 0, s => s
  | _ + 1, [] => []
  | fuel + 1, s@(c :: rest) =>
    match matchInlineSettingAt optn settingLit s with
    | some (g1, g2, g3, _, g5, r) =>
      g1 ++ g2 ++ g3 ++ repl ++ g5 ++ renameSettingSubGo optn settingLit repl fuel r
    | none => c :: renameSettingSubGo optn settingLit repl fuel rest

/-- Fuelled driver for the setting-rename substitution. -/
def renameSettingSub (optn settingLit repl s : Str) : Str :=
  renameSettingSubGo optn settingLit repl s.length s

end Optionset

namespace Optionset

/-- The ways a run can abort inside `_process_line`:
`sysExit` is the `_handle_errors`/`_exit` path (the message is printed
and `sys.exit()` is called **with no argument**, i.e. exit status 0);
`keyError` is the unguarded `nested_optn_db[nested_lvl-1]` lookup. -/
inductive PyAbort where
  | sysExit (code : Nat)
  | keyError
  deriving Repr, DecidableEq

/-- The mutable locals of `_process_line`'s main annotation loop. -/
structure LoopSt where
  newline : Str
  freeze : Bool
  fComment : Bool
  mlActive : Bool
  mlCommd : Option Bool
  inc : Int
  nestedDb : List (Int × Str)
  odb : OptnsDb
  vdb : OptnsDb
  deriving Repr, DecidableEq

/-- Multi-line bookkeeping for one annotation (lines 989-1007 of
`_process_line`): a commented opener records the option at the current
level and schedules a level increment; an uncommented closer whose
option equals the stack entry at `lvl - 1` pops it, schedules a
decrement, sets `f_comment`, clears `f_multiline_active`, freezes the
line, and uncomments it when the requested setting matches.  The second
component is the `continue` flag (skip the rest of this iteration).
A missing `nested_optn_db[nested_lvl-1]` key is Python's unguarded
`KeyError`. -/
def annBookkeep (comInd line : Str) (lvl : Int) (info : InlineInfo)
    (st : LoopSt) (a : RawAnn) : Except PyAbort (LoopSt × Bool) :=
  let key := a.tag ++ a.rawOpt
  if a.mtag ≠ ([] : Str) then
    if st.fComment then
      Except.ok ({ st with nestedDb := setAssoc lvl key st.nestedDb,
                           inc := 1 }, false)
    else if st.nestedDb.isEmpty then Except.ok (st, false)
    else
      match getAssoc (lvl - 1) st.nestedDb with
      | none => Except.error PyAbort.keyError
      | some v =>
        if v = key then
          let st := { st with
            nestedDb := eraseAssoc (lvl - 1) st.nestedDb, inc := -1,
            fComment := true, mlActive := false, freeze := true }
          let st := if lookupFlag info.settingMatch key then
              { st with newline := uncommentLine comInd line }
            else st
          Except.ok (st, true)
        else Except.ok (st, false)
  else Except.ok (st, false)

/-- Availability-database update for one annotation (lines 1010-1024):
an uncommented var setting stores the live captured value in the
variable-options database (aborting if the capture fails); anything
else goes through the availability state table. -/
def annAvail (o : RegexOracle) (inp : InputDb) (nonCom : Str)
    (info : InlineInfo) (st : LoopSt) (a : RawAnn) :
    Except PyAbort LoopSt :=
  let key := a.tag ++ a.rawOpt
  if inp.fAvailable || inp.fShowfiles || inp.fBashcomp then
    if isVarSetting a.setting && !st.fComment then
      match parseInlineRegex o nonCom a.setting with
      | none => Except.error (PyAbort.sysExit 0)
      | some v =>
        Except.ok { st with vdb := dbWrite st.vdb key v PyVal.eqSign }
    else
      let (odb, cur) := dbReadCreate st.odb key a.setting
      let nv := updateAvailEntry cur (lookupCount info.count key) st.fComment
      Except.ok { st with odb := dbWrite odb key a.setting nv }
  else Except.ok st

/-- Line modification for one annotation (lines 1027-1077): in apply
mode, on an option match, uncomment a commented line whose setting
matches (updating the multi-line scope flags for `mtag`), rewrite an
uncommented var setting, or comment an uncommented line when no
annotation on the line carries the requested setting. -/
def annApply (o : RegexOracle) (inp : InputDb) (line : Str)
    (comInd nestedComInds nonCom wholeCom : Str) (info : InlineInfo)
    (st : LoopSt) (a : RawAnn) : Except PyAbort LoopSt :=
  let key := a.tag ++ a.rawOpt
  if !(inp.fAvailable || inp.fShowfiles) then
    if (inp.tag ++ inp.rawOpt).filter (· ≠ '\\') = key then
      if st.fComment then
        if inp.setting = a.setting then
          let st := { st with newline := uncommentLine comInd line }
          if a.mtag ≠ ([] : Str) && !st.mlActive then
            Except.ok { st with mlActive := true, mlCommd := some st.fComment }
          else if a.mtag ≠ ([] : Str) && st.mlActive then
            Except.ok { st with mlActive := false, mlCommd := none }
          else Except.ok st
        else Except.ok st
      else if isVarSetting a.setting then
        match parseInlineRegex o nonCom a.setting with
        | none => Except.error (PyAbort.sysExit 0)
        | some strToReplace =>
          if inp.setting = strToReplace then Except.ok st
          else
            match setVarOptn o comInd inp.setting a.setting nestedComInds
                nonCom wholeCom with
            | none => Except.error (PyAbort.sysExit 0)
            | some nl => Except.ok { st with newline := nl, freeze := true }
      else if lookupFlag info.optnMatch key
          && !(lookupFlag info.settingMatch key) then
        let st := { st with newline := commentLine comInd line }
        if a.mtag ≠ ([] : Str) && !st.mlActive then
          Except.ok { st with mlActive := true, mlCommd := some st.fComment,
                              freeze := true }
        else if a.mtag ≠ ([] : Str) && st.mlActive then
          Except.ok { st with mlActive := false, mlCommd := none,
                              freeze := true }
        else Except.ok st
      else Except.ok st
    else Except.ok st
  else Except.ok st

/-- One iteration of the main annotation loop (lines 981-1077 of
`_process_line`): skip when frozen, then bookkeeping (whose `continue`
skips the rest), availability, and the apply logic. -/
def annStep (o : RegexOracle) (inp : InputDb) (line : Str) (lvl : Int)
    (comInd nestedComInds nonCom wholeCom : Str) (info : InlineInfo)
    (st : LoopSt) (a : RawAnn) : Except PyAbort LoopSt :=
  if st.freeze then Except.ok st
  else
    match annBookkeep comInd line lvl info st a with
    | Except.error e => Except.error e
    | Except.ok (st1, skipRest) =>
      if skipRest then Except.ok st1
      else
        match annAvail o inp nonCom info st1 a with
        | Except.error e => Except.error e
        | Except.ok st2 =>
          annApply o inp line comInd nestedComInds nonCom wholeCom info st2 a

/-- The main annotation loop: `annStep` folded over the line's
annotations, stopping at the first abort. -/
def annLoop (o : RegexOracle) (inp : InputDb) (line : Str) (lvl : Int)
    (comInd nestedComInds nonCom wholeCom : Str) (info : InlineInfo) :
    List RawAnn → LoopSt → Except PyAbort LoopSt
  | [], st => Except.ok st
  | a :: rest, st =>
    match annStep o inp line lvl comInd nestedComInds nonCom wholeCom info
        st a with
    | Except.error e => Except.error e
    | Except.ok st' =>
      annLoop o inp line lvl comInd nestedComInds nonCom wholeCom info rest st'

/-- The four captures of the line classifier (lines 910-917): the
empty-string defaults when neither pattern matches. -/
def lineParts (comInd : Str) (n : Nat) (line : Str) :
    Str × Str × Str × Bool :=
  match classifyLine comInd n line with
  | some p => (p.nestedComInds, p.nonCom, p.wholeCom, p.fComment)
  | none => (([] : Str), ([] : Str), ([] : Str), false)

/-- The rename short-circuit (lines 945-967): the new line and the
file-modified flag it sets. -/
def renameResult (inp : InputDb) (line comInd : Str)
    (nestedComInds nonCom wholeCom : Str) (info : InlineInfo) :
    Str × Bool :=
  let p1 :=
    if info.fOptn && inp.renameOptn ≠ ([] : Str) then
      let nwc := renameOptnSub ((inp.tag ++ inp.rawOpt).filter (· ≠ '\\'))
        inp.renameOptn wholeCom
      (nestedComInds ++ nonCom ++ comInd ++ nwc, nwc, true)
    else (line, wholeCom, false)
  if info.fSetting && inp.renameSetting ≠ ([] : Str) then
    let optn := if inp.renameOptn ≠ ([] : Str) then inp.renameOptn
      else inp.tag ++ inp.rawOpt
    let nwc := renameSettingSub (optn.filter (· ≠ '\\')) inp.setting
      inp.renameSetting p1.2.1
    (nestedComInds ++ nonCom ++ comInd ++ nwc, true)
  else (p1.1, p1.2.2)

/-- `_process_line` (lines 846-1082): classify the line, build the
inline-match maps, take the rename short-circuit or the multi-line
inheritance toggle, then run the annotation loop and update the
modified flag.  Returns the new line, the updated per-file state and
the three databases. -/
def processLine (o : RegexOracle) (inp : InputDb) (line : Str)
    (fdb : FileVars) (odb vdb sdb : OptnsDb) :
    Except PyAbort (Str × FileVars × OptnsDb × OptnsDb × OptnsDb) :=
  let lvl := fdb.nestedLvl + fdb.nestedIncrement
  let parts := lineParts fdb.comInd lvl.toNat line
  let anns := findallOptnSetting parts.2.2.1
  let info := anns.foldl (inlineStep inp fdb.filepath)
    ⟨[], [], [], false, false, sdb⟩
  -- rename short-circuit (lines 945-967)
  if inp.renameOptn ≠ ([] : Str) || inp.renameSetting ≠ ([] : Str) then
    let rr := renameResult inp line fdb.comInd parts.1 parts.2.1 parts.2.2.1
      info
    Except.ok (rr.1,
      { fdb with nestedLvl := lvl, nestedIncrement := 0,
                 fFilemodified := fdb.fFilemodified || rr.2 },
      odb, vdb, info.sdb)
  else
    -- multi-line inheritance toggle (lines 971-978)
    let tog :=
      if fdb.fMultilineActive && !info.fOptn then
        (match fdb.fMulticommd with
         | some true => uncommentLine fdb.comInd line
         | _ => commentLine fdb.comInd line, true)
      else (line, false)
    let st0 : LoopSt :=
      { newline := tog.1, freeze := tog.2, fComment := parts.2.2.2,
        mlActive := fdb.fMultilineActive, mlCommd := fdb.fMulticommd,
        inc := 0, nestedDb := fdb.nestedOptnDb, odb := odb, vdb := vdb }
    match annLoop o inp line lvl fdb.comInd parts.1 parts.2.1 parts.2.2.1
        info anns st0 with
    | Except.error e => Except.error e
    | Except.ok st =>
      let modified := fdb.fFilemodified || decide (st.newline ≠ line)
      Except.ok (st.newline,
        { fdb with nestedLvl := lvl, nestedIncrement := st.inc,
                   fFilemodified := modified, fMultilineActive := st.mlActive,
                   fMulticommd := st.mlCommd, nestedOptnDb := st.nestedDb },
        st.odb, st.vdb, info.sdb)

end Optionset

namespace Optionset

/-- Text-mode file iteration: split into lines, each keeping its
trailing `'\n'` (the final line may lack one). -/
def splitLinesGo : Str → Str → List Str
  | [], acc => if acc.isEmpty then [] else [acc.reverse]
  | c :: rest, acc =>
    if c = '\n' then (c :: acc).reverse :: splitLinesGo rest []
    else splitLinesGo rest (c :: acc)

/-- Split a file's content into its lines. -/
def splitLines (s : Str) : List Str := splitLinesGo s []

/-- First pass of `_get_comment_indicator`:
`re.compile(rf'^\s*({ANY_COMMENT_IND}).*').search(line)` — a leading
(possibly empty) whitespace run followed by one of the five
indicators. -/
def detectLeadComInd (line : Str) : Option Str :=
  matchAnyComInd (line.dropWhile isPySpace)

/-- Split at the first position where any comment indicator matches:
(text before, the matched indicator, text after). -/
def splitAtAnyComInd : Str → Option (Str × Str × Str)
  | [] => none
  | s@(c :: rest) =>
    match matchAnyComInd s with
    | some ind => some ([], ind, s.drop ind.length)
    | none =>
      (splitAtAnyComInd rest).map (fun p => (c :: p.1, p.2.1, p.2.2))

/-- Second pass of `_get_comment_indicator`: the generic
`UNCOMMD_LINE` (formatted with `GENERIC_RE_VARS`: wildcard comment
indicator, empty nested prefix); returns the captured `com_ind`.
(The source aliases and later mutates `GENERIC_RE_VARS`; this models
the pristine dictionary, i.e. first-file semantics.) -/
def matchUncommdGeneric (line : Str) : Option Str :=
  match splitAtAnyComInd line with
  | none => none
  | some (nc, ind, wc) =>
    if nc.isEmpty || nc.any (· = '\n') then none
    else if hasAnno wc then some ind else none

/-- `_get_comment_indicator`: first matching line of the first pass,
else first matching line of the second pass, else `None`. -/
def getCommentIndicator (content : Str) : Option Str :=
  let lines := splitLines content
  match lines.findSome? detectLeadComInd with
  | some c => some c
  | none => lines.findSome? matchUncommdGeneric

/-- The distinct exits of `_process_file`: skipped for size (the source
compares `st_size/1000 > max_fsize_kb`, i.e. *kilo*bytes of 1000, in
exact arithmetic `1000 * max < size`), skipped for line count, skipped
because no comment indicator was found, or processed (with the
resulting content and the file-modified flag that decides whether the
file is rewritten). -/
inductive FileOutcome where
  | skippedSize
  | skippedLines
  | skippedNoComInd
  | processed (content : Str) (changed : Bool)
  deriving Repr, DecidableEq

/-- The buffered `newlines` loop of `_process_file` (lines 1134-1141):
one `_process_line` output per input line, in order. -/
def processLinesList (o : RegexOracle) (inp : InputDb) :
    List Str → FileVars → OptnsDb → OptnsDb → OptnsDb →
    Except PyAbort (List Str × FileVars × OptnsDb × OptnsDb × OptnsDb)
  | [], fdb, odb, vdb, sdb => Except.ok ([], fdb, odb, vdb, sdb)
  | l :: rest, fdb, odb, vdb, sdb =>
    match processLine o inp l fdb odb vdb sdb with
    | Except.error e => Except.error e
    | Except.ok (nl, fdb1, odb1, vdb1, sdb1) =>
      match processLinesList o inp rest fdb1 odb1 vdb1 sdb1 with
      | Except.error e => Except.error e
      | Except.ok (nls, fdb2, odb2, vdb2, sdb2) =>
        Except.ok (nl :: nls, fdb2, odb2, vdb2, sdb2)

/-- `_process_file`: the size gate (`st_size/1000 > max_fsize_kb`), the
line-count gate, comment-indicator detection, the per-line loop, and
the rewrite-iff-modified rule (`file.writelines(newlines)` writes the
concatenation of the buffered lines). -/
def processFile (o : RegexOracle) (inp : InputDb) (filepath content : Str)
    (odb vdb sdb : OptnsDb) :
    Except PyAbort (FileOutcome × OptnsDb × OptnsDb × OptnsDb) :=
  let lines := splitLines content
  if 1000 * inp.maxFsizeKb < content.length then
    Except.ok (FileOutcome.skippedSize, odb, vdb, sdb)
  else if inp.maxFlines < lines.length then
    Except.ok (FileOutcome.skippedLines, odb, vdb, sdb)
  else
    match getCommentIndicator content with
    | none => Except.ok (FileOutcome.skippedNoComInd, odb, vdb, sdb)
    | some comInd =>
      let fdb : FileVars :=
        { filepath := filepath, fFilemodified := false,
          fMultilineActive := false, fMulticommd := none, nestedLvl := 0,
          nestedIncrement := 0, comInd := comInd, nestedOptnDb := [] }
      match processLinesList o inp lines fdb odb vdb sdb with
      | Except.error e => Except.error e
      | Except.ok (nls, fdb', odb', vdb', sdb') =>
        if fdb'.fFilemodified then
          Except.ok (FileOutcome.processed nls.flatten true, odb', vdb', sdb')
        else
          Except.ok (FileOutcome.processed content false, odb', vdb', sdb')

/-- The per-file loop of `_scroll_through_files`. -/
def scrollGo (o : RegexOracle) (inp : InputDb) :
    List (Str × Str) → OptnsDb × OptnsDb × OptnsDb × Bool →
    Except PyAbort (OptnsDb × OptnsDb × OptnsDb × Bool)
  | [], acc => Except.ok acc
  | (p, c) :: rest, (od, vd, sd, ch) =>
    match processFile o inp p c od vd sd with
    | Except.error e => Except.error e
    | Except.ok (out, od', vd', sd') =>
      let ch' := ch || (match out with
        | FileOutcome.processed _ true => true
        | _ => false)
      scrollGo o inp rest (od', vd', sd', ch')

/-- `_scroll_through_files` over a list of (path, content) pairs:
process every file, then cut out the options with a singular setting —
`{tg: n for tg, n in optns_settings_db.items() if len(n) > 1}` (only
the option-settings database is filtered; the variable-options and
show-files databases are returned as accumulated). -/
def scrollThroughFiles (o : RegexOracle) (inp : InputDb)
    (files : List (Str × Str)) :
    Except PyAbort (OptnsDb × OptnsDb × OptnsDb × Bool) :=
  match scrollGo o inp files ([], [], [], false) with
  | Except.error e => Except.error e
  | Except.ok (od, vd, sd, ch) =>
    Except.ok (od.filter (fun p => decide (p.2.length > 1)), vd, sd, ch)

/-- Python string `<` (lexicographic by code point). -/
def strLt : Str → Str → Bool
  | [], [] => false
  | [], _ :: _ => true
  | _ :: _, [] => false
  | a :: as, b :: bs => if a = b then strLt as bs else decide (a < b)

/-- Insertion into a key-sorted association list. -/
def insertSorted {α : Type} (x : Str × α) :
    List (Str × α) → List (Str × α)
  | [] => [x]
  | y :: rest =>
    if strLt x.1 y.1 then x :: y :: rest else y :: insertSorted x rest

/-- `sorted(db.items())` (keys are unique, so sorting by key). -/
def sortByKey {α : Type} (l : List (Str × α)) : List (Str × α) :=
  l.foldr insertSorted []

/-- `fnmatch` for the glob patterns the driver builds (`*`, `{optn}*`):
`*` matches any run, `?` one character, other characters literally
(the `[seq]` form never occurs in the patterns exercised here). -/
def globMatchGo : Nat → Str → Str → Bool
  | 0, _, _ => false
  | _ + 1, [], [] => true
  | _ + 1, [], _ :: _ => false
  | fuel + 1, '*' :: prest, [] => globMatchGo fuel prest []
  | fuel + 1, '*' :: prest, n :: nrest =>
    globMatchGo fuel prest (n :: nrest) || globMatchGo fuel ('*' :: prest) nrest
  | _ + 1, _ :: _, [] => false
  | fuel + 1, p :: prest, n :: nrest =>
    (p = '?' || p = n) && globMatchGo fuel prest nrest

/-- Fuelled driver (every step shrinks `pattern.length + name.length`,
so the fuel below always suffices). -/
def globMatch (pat name : Str) : Bool :=
  globMatchGo (pat.length + name.length + 1) pat name

/-- The left/right markers of `_print_available` for one stored state:
`True → '>' '<'`, `False`/`None` → spaces, any other value (the strings
`'?'` and `'='`) is printed on both sides. -/
def settingMark : PyVal → Str × Str
  | PyVal.pyBool true => (['>'], ['<'])
  | PyVal.pyBool false => ([' '], [' '])
  | PyVal.pyNone => ([' '], [' '])
  | PyVal.qmark => (['?'], ['?'])
  | PyVal.eqSign => (['='], ['='])

/-- The `body_msg` of `_print_available` in the `show_files_db is None`
case: for each of the two databases in turn, every option (sorted)
matching the glob contributes `\n  {optn}` and, when `f_available`,
one `\n\t{left} {setting} {right}` per (sorted) setting. -/
def printAvailableBodyNoFiles (odb vdb : OptnsDb) (globPat : Str)
    (fAvailable : Bool) : Str :=
  let per := fun (acc : Str) (item : Str × SettingsMap) =>
    if !(globMatch globPat item.1) then acc
    else
      let acc := acc ++ '\n' :: ' ' :: ' ' :: item.1
      if fAvailable then
        (sortByKey item.2).foldl
          (fun a (sv : Str × PyVal) =>
            let (l, r) := settingMark sv.2
            a ++ '\n' :: '\t' :: (l ++ ' ' :: (sv.1 ++ ' ' :: r))) acc
      else acc
  (sortByKey vdb).foldl per ((sortByKey odb).foldl per [])

/-- `^({mtag}*)({tag}+)({raw_opt})$` with the generic classes — the
option grammar of `_check_optn_fmt` (Python's `$` also matches just
before a final newline). -/
def matchTagOption (s : Str) : Option (Str × Str × Str) :=
  let (stars, s1) := starRun s
  let (tags, s2) := tagRun s1
  if tags.isEmpty then none else
  let (w, s3) := wordRun s2
  if w.isEmpty then none else
  if s3 = ([] : Str) || s3 = ['\n'] then some (stars, tags, w) else none

/-- `_check_optn_fmt`: on a grammar failure the `AttributeError` is
handled by `_handle_errors`, which prints `INVALID_OPTN_MSG` and calls
`_exit` → `sys.exit()` **with no argument** — process exit status 0
(modelled as `Except.error 0`).  On success the tag characters are each
escaped with a backslash. -/
def checkOptnFmt (optnStr : Str) : Except Nat (Str × Str) :=
  match matchTagOption optnStr with
  | none => Except.error 0
  | some (_, tag, raw) =>
    Except.ok (tag.foldr (fun c acc => '\\' :: c :: acc) [], raw)

/-- One character of `VALID_INPUT_SETTING = rf'(?: |{ANY_WORD})+'`. -/
def isInputSettingChar (c : Char) : Bool := c = ' ' || isWordChar c

/-- `_check_setting_fmt`: `re.search(f"(^{VALID_INPUT_SETTING}$)", s)`,
whose `group(0)` excludes a final newline; failure prints
`INVALID_SETTING_MSG` and exits with status 0. -/
def checkSettingFmt (s : Str) : Except Nat Str :=
  let run := s.takeWhile isInputSettingChar
  let rest := s.dropWhile isInputSettingChar
  if run ≠ ([] : Str) && (rest = ([] : Str) || rest = ['\n']) then
    Except.ok run
  else Except.error 0

/-- The regex-source constants of the module, as literal strings
(`ANY_COMMENT_IND`, `MULTI_TAG`, `ANY_WORD`, `BRACKETS`, `ANY_QUOTE`,
and `ANY_TAG` assembled exactly as in the source). -/
def anyCommentIndPat : Str := "(?://|[#%!]|--)".data

/-- `MULTI_TAG = r'[*]'`. -/
def multiTagPat : Str := "[*]".data

/-- `ANY_WORD = r'[a-zA-Z0-9._\-\+]+'`. -/
def anyWordPat : Str := "[a-zA-Z0-9._\\-\\+]+".data

/-- `BRACKETS = r'[()<>\[\]]'`. -/
def bracketsPat : Str := "[()<>\\[\\]]".data

/-- `ANY_QUOTE = r'[\'"]'`. -/
def anyQuotePat : Str := "[\\'\"]".data

/-- `ANY_TAG = rf'(?:(?!\s|{ANY_COMMENT_IND}|{MULTI_TAG}|{ANY_WORD}|{BRACKETS}|{ANY_QUOTE}).)'`. -/
def anyTagPat : Str :=
  "(?:(?!\\s|".data ++ anyCommentIndPat ++ "|".data ++ multiTagPat
    ++ "|".data ++ anyWordPat ++ "|".data ++ bracketsPat ++ "|".data
    ++ anyQuotePat ++ ").)".data

/-- The `InputDb` built by `_parse_and_check_input` for the discovery
modes (`-a` / `-f`): `tag = ANY_TAG`, `raw_opt = ANY_RAW_OPTN`
(the regex *sources* as strings), the raw `args.setting`, no renames. -/
def discoveryInput (setting : Str) (fA fS fB : Bool)
    (maxFl maxKb : Nat) : InputDb :=
  { tag := anyTagPat, rawOpt := anyWordPat, setting := setting,
    fAvailable := fA, fShowfiles := fS, fBashcomp := fB,
    renameOptn := [], renameSetting := [], maxFlines := maxFl,
    maxFsizeKb := maxKb }

end Optionset

namespace Optionset

/-- A character with no special regex meaning (delimits the pattern
family the concrete oracle instance below supports; `\x7b`/`\x7d` are
the curly quantifier braces). -/
def isPlainReChar (c : Char) : Bool :=
  !(c = '.' || c = '^' || c = '$' || c = '*' || c = '+' || c = '?'
    || c = '[' || c = ']' || c = '(' || c = ')' || c = '|' || c = '\\'
    || c.toNat = 123 || c.toNat = 125)

/-- Decompose a pattern of the family `literal ++ "(.*)" ++ literal`
with metacharacter-free literals into (pre, post); `none` for anything
outside the family. -/
def splitGroupPat : Str → Option (Str × Str)
  | '(' :: '.' :: '*' :: ')' :: rest =>
    if rest.all isPlainReChar then some ([], rest) else none
  | c :: rest =>
    if isPlainReChar c then
      (splitGroupPat rest).map (fun p => (c :: p.1, p.2))
    else none
  | [] => none

/-- Greedy `(.*)` followed by the literal `post`: the longest non-newline
group after which `post` matches; returns (group, rest after `post`). -/
def groupPostSplit (post : Str) : Str → Option (Str × Str)
  | [] => if post.isEmpty then some ([], []) else none
  | s@(c :: rest) =>
    match (if c ≠ '\n' then
        (groupPostSplit post rest).map (fun p => (c :: p.1, p.2))
      else none) with
    | some r => some r
    | none =>
      if post.isPrefixOf s then some ([], s.drop post.length) else none

/-- Leftmost match of `pre ++ (.*) ++ post`, returning group 1. -/
def miniSearchGo (pre post : Str) : Str → Option Str
  | [] =>
    if pre.isPrefixOf ([] : Str) then
      (groupPostSplit post []).map Prod.fst
    else none
  | s@(_ :: rest) =>
    match (if pre.isPrefixOf s then
        (groupPostSplit post (s.drop pre.length)).map Prod.fst
      else none) with
    | some g => some g
    | none => miniSearchGo pre post rest

/-- A concrete `RegexOracle` implementing `re.search(pat, text).group(1)`
for the family `literal ++ "(.*)" ++ literal` with metacharacter-free
literals (leftmost match, greedy group bounded by the line end) — the
only patterns the concrete theorems exercise.  No theorem stated with
this oracle reaches the substitution component, which is left as the
identity on the text. -/
def miniOracle : RegexOracle where
  searchGroup1 := fun pat text =>
    match splitGroupPat pat with
    | some (pre, post) => miniSearchGo pre post text
    | none => none
  sub3 := fun _ _ _ _ text => text

/-- An oracle for runs that never reach a variable-setting rewrite. -/
def noOracle : RegexOracle :=
  ⟨fun _ _ => none, fun _ _ _ _ text => text⟩

/-- Spec-side reading for C9: the number of *unescaped* opening
parentheses — "exactly one regex capture group `( ... )` when
un-escaped" (the previous character, if any, is not a backslash). -/
def specUGCGo : Option Char → Str → Nat
  | _, [] => 0
  | prev, c :: rest =>
    (if c = '(' && prev ≠ some '\\' then 1 else 0) + specUGCGo (some c) rest

/-- Spec-side unescaped capture-group count. -/
def specUnescapedGroupCount (s : Str) : Nat := specUGCGo none s

/-- Spec-side reading for C5: the line "begins with exactly one comment
indicator after leading whitespace" — whitespace*, the indicator, and
no second indicator immediately following. -/
def lineBeginsWithOneComInd (c line : Str) : Bool :=
  let rest := line.dropWhile isPySpace
  c.isPrefixOf rest && !(c.isPrefixOf (rest.drop c.length))

/-- The `InputDb` built by `_parse_and_check_input` for a plain apply
request (no discovery flags, no renames): escaped tag, raw option,
validated setting. -/
def applyInput (tagChars rawOpt setting : Str) (maxFl maxKb : Nat) :
    InputDb :=
  { tag := tagChars.foldr (fun c acc => '\\' :: c :: acc) [],
    rawOpt := rawOpt, setting := setting, fAvailable := false,
    fShowfiles := false, fBashcomp := false, renameOptn := [],
    renameSetting := [], maxFlines := maxFl, maxFsizeKb := maxKb }

end Optionset

namespace Optionset

/-- Substring test (used only to state that an option name occurs in a
report body). -/
def strContainsSub (needle : Str) : Str → Bool
  | [] => needle.isEmpty
  | s@(_ :: rest) => needle.isPrefixOf s || strContainsSub needle rest

end Optionset

namespace Optionset

/-! ## The claims -/

/-- **C1.** Simple toggle scenario: processing the two-line file
`application pimpleFoam // @simulation transient\n` /
`//application simpleFoam // @simulation steady\n` with the apply
request option `@simulation`, setting `steady` (comment indicator `//`)
produces exactly the swapped pair of lines, byte for byte, and marks
the file modified (so it is rewritten with that content). -/
theorem claim1_simple_toggle :
    processFile noOracle
      (applyInput "@".data "simulation".data "steady".data 9999 10)
      "a.txt".data
      ("application pimpleFoam // @simulation transient\n" ++
       "//application simpleFoam // @simulation steady\n").data
      [] [] []
    = Except.ok (FileOutcome.processed
        ("//application pimpleFoam // @simulation transient\n" ++
         "application simpleFoam // @simulation steady\n").data
        true, [], [], []) := rfl

/-- **C3.** Refutation of apply-mode idempotence, at the failing input:
applying `@a on` to the single-line file `// //y // *@a on\n` yields
` //y // *@a on\n` (one leading indicator stripped); applying the same
request to that result modifies it *again*, to ` y // *@a on\n` — the
second run does not leave the first run's output unchanged. -/
theorem claim3_apply_not_idempotent :
    processFile noOracle (applyInput "@".data "a".data "on".data 9999 10)
      "f".data "// //y // *@a on\n".data [] [] []
      = Except.ok (FileOutcome.processed " //y // *@a on\n".data true,
          [], [], []) ∧
    processFile noOracle (applyInput "@".data "a".data "on".data 9999 10)
      "f".data " //y // *@a on\n".data [] [] []
      = Except.ok (FileOutcome.processed " y // *@a on\n".data true,
          [], [], []) ∧
    (" y // *@a on\n".data ≠ " //y // *@a on\n".data) :=
  ⟨rfl, rfl, by decide⟩

/-- **C4.** Availability-database ambiguity transitions: with inline
count 1, a stored `Active` (`True`) entry observed commented becomes
`'?'`; a stored `Inactive` (`False`) entry observed uncommented becomes
`'?'`; and an `Ambiguous` (`'?'`) entry absorbs every further commented
or uncommented observation at any inline count. -/
theorem claim4_availability_transitions :
    updateAvailEntry (PyVal.pyBool true) 1 true = PyVal.qmark ∧
    updateAvailEntry (PyVal.pyBool false) 1 false = PyVal.qmark ∧
    ∀ (count : Nat) (fComment : Bool),
      updateAvailEntry PyVal.qmark count fComment = PyVal.qmark := by
  refine ⟨rfl, rfl, fun count fComment => ?_⟩
  cases fComment <;> rfl

/-- **C5 (counterexample).** The round-trip law fails as stated: the
line ` //x` begins with exactly one comment indicator after leading
whitespace, yet `comment(uncomment(' //x')) = '//  x' ≠ ' //x'` — the
uncomment step keeps the leading whitespace, while the comment step
prepends the indicator at column 0. -/
theorem claim5_roundtrip_counterexample :
    lineBeginsWithOneComInd "//".data " //x".data = true ∧
    commentLine "//".data (uncommentLine "//".data " //x".data)
      ≠ " //x".data := by
  exact ⟨rfl, by decide⟩

/-- **C5 (amended).** `comment(uncomment(line)) = line` holds whenever
the line begins with the comment indicator *at column 0* (no leading
whitespace): for each of the five valid indicators `c` and any tail
`rest`, `commentLine c (uncommentLine c (c ++ rest)) = c ++ rest`. -/
theorem claim5_roundtrip_amended (c : Str) (hc : c ∈ validComInds)
    (rest : Str) :
    commentLine c (uncommentLine c (c ++ rest)) = c ++ rest := by
  simp only [validComInds, List.mem_cons, List.not_mem_nil, or_false] at hc
  rcases hc with rfl | rfl | rfl | rfl | rfl <;>
    simp [commentLine, uncommentLine, isPySpace, List.takeWhile,
      List.dropWhile, List.isPrefixOf]

/-- Witness for the amended C5 round-trip law at `c = "//"`,
`rest = "x"`. -/
theorem claim5_roundtrip_amended_witness :
    "//".data ∈ validComInds ∧
    commentLine "//".data (uncommentLine "//".data ("//".data ++ "x".data))
      = "//".data ++ "x".data :=
  ⟨by decide, claim5_roundtrip_amended "//".data (by decide) "x".data⟩

end Optionset

namespace Optionset

/-- **C6 (counterexample).** The filtering claim fails for variable
options: a discovery run over a single file with one variable option
observed once leaves that option (with its single captured value) in
the variable-options database — `_scroll_through_files` filters only
`optns_settings_db` — and `_print_available`'s body still lists it, so
an option with only one observed setting *does* appear in the report. -/
theorem claim6_singleton_counterexample :
    scrollThroughFiles miniOracle (discoveryInput [] true false false 9999 10)
      [("v.cfg".data, "nu = 1.5; // ~nu ='= (.*);'\n".data)]
      = Except.ok ([], [("~nu".data, [("1.5".data, PyVal.eqSign)])], [],
          false) ∧
    ([("1.5".data, PyVal.eqSign)] : SettingsMap).length < 2 ∧
    strContainsSub "~nu".data
      (printAvailableBodyNoFiles []
        [("~nu".data, [("1.5".data, PyVal.eqSign)])] "*".data true)
      = true :=
  ⟨rfl, by decide, by decide⟩

/-- **C6 (amended).** After traversal, every option entry that survives
in the *option-settings* database has at least two settings (the
dictionary comprehension keeps exactly the entries with `len(n) > 1`);
the variable-options database is not filtered, so a variable option
with a single observed value still appears in the report. -/
theorem claim6_singleton_amended (o : RegexOracle) (inp : InputDb)
    (files : List (Str × Str)) (odb vdb sdb : OptnsDb) (ch : Bool)
    (h : scrollThroughFiles o inp files = Except.ok (odb, vdb, sdb, ch)) :
    ∀ e ∈ odb, 2 ≤ e.2.length := by
  unfold scrollThroughFiles at h
  split at h
  · cases h
  · cases h
    intro e he
    exact of_decide_eq_true ((List.mem_filter.mp he).2)

/-- Witness for the amended C6 singleton filter: a concrete discovery
run whose surviving option has exactly two settings. -/
theorem claim6_singleton_amended_witness :
    scrollThroughFiles noOracle (discoveryInput [] true false false 9999 10)
      [("t".data, "a 1 // @x y\n//a 2 // @x z\n".data)]
      = Except.ok ([("@x".data,
          [("y".data, PyVal.pyBool true), ("z".data, PyVal.pyBool false)])],
          [], [], false) ∧
    2 ≤ (("@x".data,
          [("y".data, PyVal.pyBool true), ("z".data, PyVal.pyBool false)])
            : Str × SettingsMap).2.length :=
  ⟨rfl,
    claim6_singleton_amended noOracle
      (discoveryInput [] true false false 9999 10)
      [("t".data, "a 1 // @x y\n//a 2 // @x z\n".data)] _ _ _ _ rfl _
      (by decide)⟩

/-- **C7 (counterexample).** A file of exactly `max_fsize_kb` KiB
(`max_fsize_kb * 1024` bytes; here 1 KiB with `max_fsize_kb = 1`) is
*skipped*, not processed: the source divides the byte size by 1000, so
1024 bytes exceed the limit of 1 "kB". -/
theorem claim7_fsize_counterexample :
    (List.replicate 1024 'x').length = 1 * 1024 ∧
    processFile noOracle (discoveryInput [] true false false 9999 1)
      "f".data (List.replicate 1024 'x') [] [] []
      = Except.ok (FileOutcome.skippedSize, [], [], []) := by
  refine ⟨by rw [List.length_replicate], ?_⟩
  simp only [processFile]
  rw [if_pos (by rw [List.length_replicate]; norm_num [discoveryInput])]

/-- **C7 (amended).** The size boundary as implemented: a file of at
most `max_fsize_kb * 1000` bytes is never size-skipped (in particular
one of exactly `max_fsize_kb * 1000` bytes), and a strictly larger one
is size-skipped with everything left unchanged. -/
theorem claim7_fsize_amended (o : RegexOracle) (inp : InputDb)
    (path content : Str) (odb vdb sdb : OptnsDb) :
    (content.length ≤ 1000 * inp.maxFsizeKb →
      ∀ r, processFile o inp path content odb vdb sdb = Except.ok r →
        r.1 ≠ FileOutcome.skippedSize) ∧
    (1000 * inp.maxFsizeKb < content.length →
      processFile o inp path content odb vdb sdb
        = Except.ok (FileOutcome.skippedSize, odb, vdb, sdb)) := by
  constructor
  · intro hle r hr
    simp only [processFile] at hr
    rw [if_neg (by omega)] at hr
    split at hr
    · cases hr; simp
    · split at hr
      · cases hr; simp
      · split at hr
        · cases hr
        · split at hr <;> (cases hr; simp)
  · intro hlt
    simp only [processFile]
    rw [if_pos (by omega)]

/-- Witness for the amended C7 boundary, on both sides: an empty file
with `max_fsize_kb = 0` (exactly `1000 * 0` bytes) is not size-skipped,
and a one-byte file with `max_fsize_kb = 0` is size-skipped. -/
theorem claim7_fsize_amended_witness :
    (processFile noOracle (discoveryInput [] true false false 9999 0)
        "f".data [] [] [] [] = Except.ok (FileOutcome.skippedNoComInd,
          [], [], []) →
      (FileOutcome.skippedNoComInd, ([] : OptnsDb), ([] : OptnsDb),
        ([] : OptnsDb)).1 ≠ FileOutcome.skippedSize) ∧
    processFile noOracle (discoveryInput [] true false false 9999 0)
      "f".data "x".data [] [] []
      = Except.ok (FileOutcome.skippedSize, [], [], []) :=
  ⟨(claim7_fsize_amended noOracle (discoveryInput [] true false false 9999 0)
      "f".data [] [] [] []).1 (by decide) _,
   (claim7_fsize_amended noOracle (discoveryInput [] true false false 9999 0)
      "f".data "x".data [] [] []).2 (by decide)⟩

/-- **C8 (counterexample).** An invalid option (`@invalid@Option`) and
an invalid setting (`@invalidSetting`) are both rejected, but the
process terminates through `_exit`'s bare `sys.exit()` — exit status 0,
not nonzero. -/
theorem claim8_exitcode_counterexample :
    checkOptnFmt "@invalid@Option".data = Except.error 0 ∧
    checkSettingFmt "@invalidSetting".data = Except.error 0 :=
  ⟨rfl, rfl⟩

/-- **C8 (amended).** Every option failing the
`(mtag*)(tag+)(identifier)` grammar, and every setting failing the
words-and-spaces grammar, is reported and terminates the process with
exit status **0** (`sys.exit()` with no argument), not a nonzero
status. -/
theorem claim8_exitcode_amended (s : Str) :
    (matchTagOption s = none → checkOptnFmt s = Except.error 0) ∧
    (∀ e, checkOptnFmt s = Except.error e → e = 0) ∧
    (∀ e, checkSettingFmt s = Except.error e → e = 0) := by
  refine ⟨fun h => by simp [checkOptnFmt, h], fun e h => ?_, fun e h => ?_⟩
  · unfold checkOptnFmt at h
    cases hm : matchTagOption s with
    | none => rw [hm] at h; cases h; rfl
    | some v =>
      rw [hm] at h
      obtain ⟨a, b, c⟩ := v
      cases h
  · simp only [checkSettingFmt] at h
    split at h
    · cases h
    · cases h; rfl

/-- Witness for the amended C8 exit-status law at `@invalid@Option`. -/
theorem claim8_exitcode_amended_witness :
    matchTagOption "@invalid@Option".data = none ∧
    checkOptnFmt "@invalid@Option".data = Except.error 0 :=
  ⟨rfl, (claim8_exitcode_amended "@invalid@Option".data).1 rfl⟩

/-- **C9 (counterexample).** The group-count validation does not decide
"exactly one unescaped capture group": the regex `(a)b` contains
exactly one unescaped capture group, yet `_check_varop_groups` raises
(its `findall` pattern requires a character *before* the `(`, so a
group at the start of the regex is not counted and the count is 0). -/
theorem claim9_groupcount_counterexample :
    specUnescapedGroupCount "(a)b".data = 1 ∧
    checkVaropGroups "(a)b".data = false :=
  ⟨rfl, rfl⟩

/-- **C9 (amended).** The validation accepts exactly when the
`findall`-based count — non-overlapping occurrences of
non-backslash, `(`, lazy body, non-backslash, `)` — equals one.  This
count differs from the number of unescaped capture groups at the
boundaries: a group starting the string is not counted (`(a)b` → 0,
` (a)b` → 1), and of two adjacent groups only the first is counted
(`a(b)(c)` → 1, accepted). -/
theorem claim9_groupcount_amended :
    (∀ s, checkVaropGroups s = true ↔ findGroupsCount s = 1) ∧
    findGroupsCount "(a)b".data = 0 ∧
    findGroupsCount " (a)b".data = 1 ∧
    findGroupsCount "a(b)(c)".data = 1 ∧
    specUnescapedGroupCount "a(b)(c)".data = 2 := by
  refine ⟨fun s => ?_, rfl, rfl, rfl, rfl⟩
  simp [checkVaropGroups]

/-- **C10 (counterexample).** Line structure is not always preserved:
a rename request whose replacement string contains a newline (the
rename strings are never validated) turns the one-line file
`foo // @old A \n` into two lines. -/
theorem claim10_linecount_counterexample :
    processFile noOracle
      { applyInput "@".data "old".data "A".data 9999 10 with
        renameSetting := "a\nb".data }
      "f".data "foo // @old A \n".data [] [] []
      = Except.ok (FileOutcome.processed "foo // @old a\nb \n".data true,
          [], [], []) ∧
    (splitLines "foo // @old A \n".data).length = 1 ∧
    (splitLines "foo // @old a\nb \n".data).length = 2 :=
  ⟨rfl, rfl, rfl⟩

end Optionset

namespace Optionset

/-! ## Discovery mode is inert (towards C2) -/

/-- A tag character is never a bracket; in particular never `'('`. -/
theorem isTagStart_no_bracket {c : Char} {rest : Str}
    (h : isTagStart (c :: rest) = true) : isBracketChar c = false := by
  simp only [isTagStart, Bool.and_eq_true, Bool.not_eq_true'] at h
  exact h.1.2

/-- A nonempty `tagRun` result starts with a tag character of the
input. -/
theorem tagRun_cons {s t r : Str} {c : Char}
    (h : tagRun s = (c :: t, r)) :
    ∃ rest, s = c :: rest ∧ isTagStart (c :: rest) = true := by
  cases s with
  | nil => simp [tagRun] at h
  | cons c' rest =>
    by_cases hts : isTagStart (c' :: rest)
    · simp only [tagRun, hts, if_true, Prod.mk.injEq, List.cons.injEq] at h
      obtain ⟨⟨rfl, -⟩, -⟩ := h
      exact ⟨rest, rfl, hts⟩
    · simp [tagRun, hts] at h

end Optionset

namespace Optionset

/-- Every annotation produced by one `ONLY_OPTN_SETTING` match has a
nonempty tag whose first character is not a bracket. -/
theorem matchOptnSettingAt_tag {s : Str} {a : RawAnn} {s' : Str}
    (h : matchOptnSettingAt s = some (a, s')) :
    ∃ c t, a.tag = c :: t ∧ isBracketChar c = false := by
  simp only [matchOptnSettingAt] at h
  split at h
  · cases h
  rename_i hts
  split at h
  · cases h
  split at h
  · cases h
  split at h
  · cases h
  cases h
  cases htg : (tagRun (starRun s).2).1 with
  | nil => rw [htg] at hts; simp at hts
  | cons c t =>
    obtain ⟨rest, -, hstart⟩ := tagRun_cons
      (t := t) (r := (tagRun (starRun s).2).2) (c := c) (by rw [← htg])
    exact ⟨c, t, rfl, isTagStart_no_bracket hstart⟩

end Optionset

namespace Optionset

/-- Every annotation found by the `findall` scan has a nonempty tag
whose first character is not a bracket. -/
theorem findallGo_tag {fuel : Nat} {s : Str} {a : RawAnn}
    (h : a ∈ findallGo fuel s) :
    ∃ c t, a.tag = c :: t ∧ isBracketChar c = false := by
  induction fuel generalizing s with
  | zero => simp [findallGo] at h
  | succ n ih =>
    cases s with
    | nil => simp [findallGo] at h
    | cons c rest =>
      rw [findallGo] at h
      cases hm : matchOptnSettingAt (c :: rest) with
      | none => rw [hm] at h; exact ih h
      | some pr =>
        obtain ⟨a', s'⟩ := pr
        rw [hm] at h
        rcases List.mem_cons.mp h with rfl | h'
        · exact matchOptnSettingAt_tag hm
        · exact ih h'

/-- The discovery request's option string (`ANY_TAG + ANY_RAW_OPTN`
with backslashes stripped) starts with `'('` and therefore never equals
`tag + raw_opt` of any annotation found on a line. -/
theorem discovery_target_no_match {setting : Str} {fA fS fB : Bool}
    {maxFl maxKb : Nat} {a : RawAnn} {wc : Str}
    (ha : a ∈ findallOptnSetting wc) :
    ¬ (((discoveryInput setting fA fS fB maxFl maxKb).tag
        ++ (discoveryInput setting fA fS fB maxFl maxKb).rawOpt).filter
          (· ≠ '\\')
      = a.tag ++ a.rawOpt) := by
  intro he
  obtain ⟨c, t, htag, hbr⟩ := findallGo_tag ha
  have hhead : (((discoveryInput setting fA fS fB maxFl maxKb).tag
      ++ (discoveryInput setting fA fS fB maxFl maxKb).rawOpt).filter
        (· ≠ '\\')).head? = some '(' := by
    simp only [discoveryInput]
    decide
  rw [he, htag] at hhead
  simp only [List.cons_append, List.head?_cons, Option.some.injEq] at hhead
  rw [hhead] at hbr
  simp [isBracketChar] at hbr

/-- When no annotation on the line matches the requested option, the
inline-match maps and flags come out exactly as they went in (only the
counts and the show-files database change). -/
theorem inlineFold_no_match {inp : InputDb} {fp : Str} {anns : List RawAnn}
    (hno : ∀ a ∈ anns,
      ¬ ((inp.tag ++ inp.rawOpt).filter (· ≠ '\\') = a.tag ++ a.rawOpt))
    (i : InlineInfo) :
    (anns.foldl (inlineStep inp fp) i).optnMatch = i.optnMatch ∧
    (anns.foldl (inlineStep inp fp) i).settingMatch = i.settingMatch ∧
    (anns.foldl (inlineStep inp fp) i).fOptn = i.fOptn := by
  induction anns generalizing i with
  | nil => exact ⟨rfl, rfl, rfl⟩
  | cons a rest ih =>
    simp only [List.foldl_cons]
    have hstep : (inlineStep inp fp i a).optnMatch = i.optnMatch ∧
        (inlineStep inp fp i a).settingMatch = i.settingMatch ∧
        (inlineStep inp fp i a).fOptn = i.fOptn := by
      simp only [inlineStep]
      rw [if_neg (by simpa using hno a (List.mem_cons_self a rest))]
      split <;> exact ⟨rfl, rfl, rfl⟩
    have hrest := ih (fun a' ha' => hno a' (List.mem_cons_of_mem a ha'))
      (inlineStep inp fp i a)
    exact ⟨hrest.1.trans hstep.1, hrest.2.1.trans hstep.2.1,
      hrest.2.2.trans hstep.2.2⟩

end Optionset

namespace Optionset

/-- With an empty setting-match map, the bookkeeping step never touches
the line and can only *clear* the multi-line flag. -/
theorem annBookkeep_inert {comInd line : Str} {lvl : Int}
    {info : InlineInfo} {st : LoopSt} {a : RawAnn}
    (hsm : info.settingMatch = []) {st1 : LoopSt} {skip : Bool}
    (h : annBookkeep comInd line lvl info st a = Except.ok (st1, skip)) :
    st1.newline = st.newline ∧ (st.mlActive = false → st1.mlActive = false) := by
  simp only [annBookkeep] at h
  split at h
  · split at h
    · cases h; exact ⟨rfl, fun h => h⟩
    · split at h
      · cases h; exact ⟨rfl, fun h => h⟩
      · split at h
        · cases h
        · split at h
          · rw [if_neg (by simp [lookupFlag, hsm, getAssoc])] at h
            cases h
            exact ⟨rfl, fun _ => rfl⟩
          · cases h; exact ⟨rfl, fun h => h⟩
  · cases h; exact ⟨rfl, fun h => h⟩

/-- The availability step only writes to the databases. -/
theorem annAvail_inert {o : RegexOracle} {inp : InputDb} {nonCom : Str}
    {info : InlineInfo} {st : LoopSt} {a : RawAnn} {st2 : LoopSt}
    (h : annAvail o inp nonCom info st a = Except.ok st2) :
    st2.newline = st.newline ∧ st2.mlActive = st.mlActive := by
  simp only [annAvail] at h
  split at h
  · split at h
    · split at h
      · cases h
      · cases h; exact ⟨rfl, rfl⟩
    · cases h; exact ⟨rfl, rfl⟩
  · cases h; exact ⟨rfl, rfl⟩

/-- In discovery mode (`-a` or `-f`) the apply step is skipped. -/
theorem annApply_discovery {o : RegexOracle} {inp : InputDb} {line : Str}
    {comInd nestedComInds nonCom wholeCom : Str} {info : InlineInfo}
    {st : LoopSt} {a : RawAnn}
    (hGuard : (inp.fAvailable || inp.fShowfiles) = true) :
    annApply o inp line comInd nestedComInds nonCom wholeCom info st a
      = Except.ok st := by
  simp only [annApply, hGuard, Bool.not_true, Bool.false_eq_true,
    if_false]

/-- One discovery-mode annotation step keeps the line and leaves the
multi-line flag cleared. -/
theorem annStep_discovery_inert {o : RegexOracle} {inp : InputDb}
    {line : Str} {lvl : Int}
    {comInd nestedComInds nonCom wholeCom : Str} {info : InlineInfo}
    {st : LoopSt} {a : RawAnn} {st' : LoopSt}
    (hGuard : (inp.fAvailable || inp.fShowfiles) = true)
    (hsm : info.settingMatch = [])
    (h : annStep o inp line lvl comInd nestedComInds nonCom wholeCom info
      st a = Except.ok st') :
    st'.newline = st.newline ∧ (st.mlActive = false → st'.mlActive = false) := by
  simp only [annStep] at h
  split at h
  · cases h; exact ⟨rfl, fun h => h⟩
  · cases hb : annBookkeep comInd line lvl info st a with
    | error e => rw [hb] at h; cases h
    | ok pr =>
      obtain ⟨st1, skip⟩ := pr
      rw [hb] at h
      have h1 := annBookkeep_inert hsm hb
      dsimp only at h
      split at h
      · cases h; exact h1
      · cases ha : annAvail o inp nonCom info st1 a with
        | error e => rw [ha] at h; cases h
        | ok st2 =>
          rw [ha] at h
          dsimp only at h
          have h2 := annAvail_inert ha
          rw [annApply_discovery hGuard] at h
          cases h
          exact ⟨h2.1.trans h1.1, fun hm => h2.2.trans (by simp [h1.2 hm])⟩

/-- The whole discovery-mode annotation loop keeps the line and leaves
the multi-line flag cleared. -/
theorem annLoop_discovery_inert {o : RegexOracle} {inp : InputDb}
    {line : Str} {lvl : Int}
    {comInd nestedComInds nonCom wholeCom : Str} {info : InlineInfo}
    {anns : List RawAnn} {st st' : LoopSt}
    (hGuard : (inp.fAvailable || inp.fShowfiles) = true)
    (hsm : info.settingMatch = [])
    (h : annLoop o inp line lvl comInd nestedComInds nonCom wholeCom info
      anns st = Except.ok st') :
    st'.newline = st.newline ∧ (st.mlActive = false → st'.mlActive = false) := by
  induction anns generalizing st with
  | nil => simp only [annLoop] at h; cases h; exact ⟨rfl, fun h => h⟩
  | cons a rest ih =>
    simp only [annLoop] at h
    cases hs : annStep o inp line lvl comInd nestedComInds nonCom wholeCom
        info st a with
    | error e => rw [hs] at h; cases h
    | ok st1 =>
      rw [hs] at h
      have h1 := annStep_discovery_inert hGuard hsm hs
      have h2 := ih h
      exact ⟨h2.1.trans h1.1, fun hm => h2.2 (h1.2 hm)⟩

end Optionset

namespace Optionset

/-- A discovery-mode `_process_line` never changes the line, never sets
the modified flag, and leaves the multi-line flag cleared. -/
theorem processLine_discovery_inert
    {o : RegexOracle} {setting : Str} {fA fS fB : Bool} {maxFl maxKb : Nat}
    (hA : (fA || fS) = true)
    {line : Str} {fdb : FileVars} (hM : fdb.fMultilineActive = false)
    {odb vdb sdb : OptnsDb}
    {r : Str × FileVars × OptnsDb × OptnsDb × OptnsDb}
    (h : processLine o (discoveryInput setting fA fS fB maxFl maxKb) line
      fdb odb vdb sdb = Except.ok r) :
    r.1 = line ∧ r.2.1.fFilemodified = fdb.fFilemodified ∧
      r.2.1.fMultilineActive = false := by
  simp only [processLine] at h
  rw [if_neg (by simp [discoveryInput])] at h
  rw [hM] at h
  simp only [Bool.false_and, Bool.false_eq_true, if_false] at h
  split at h
  · cases h
  · rename_i st heq
    have hsm : (List.foldl
        (inlineStep (discoveryInput setting fA fS fB maxFl maxKb)
          fdb.filepath)
        ⟨[], [], [], false, false, sdb⟩
        (findallOptnSetting
          (lineParts fdb.comInd (fdb.nestedLvl + fdb.nestedIncrement).toNat
            line).2.2.1)).settingMatch = [] := by
      exact (inlineFold_no_match
        (fun a ha => discovery_target_no_match ha) _).2.1
    have hG : ((discoveryInput setting fA fS fB maxFl maxKb).fAvailable
        || (discoveryInput setting fA fS fB maxFl maxKb).fShowfiles)
          = true := by
      simpa [discoveryInput] using hA
    have hloop := annLoop_discovery_inert hG hsm heq
    cases h
    refine ⟨hloop.1, ?_, hloop.2 rfl⟩
    simp [hloop.1]

end Optionset

namespace Optionset

/-- A discovery-mode pass over a list of lines reproduces every line,
preserves the modified flag, and keeps the multi-line flag cleared. -/
theorem processLinesList_discovery
    {o : RegexOracle} {setting : Str} {fA fS fB : Bool} {maxFl maxKb : Nat}
    (hA : (fA || fS) = true) :
    ∀ {lines : List Str} {fdb : FileVars},
      fdb.fMultilineActive = false →
      ∀ {odb vdb sdb : OptnsDb}
        {r : List Str × FileVars × OptnsDb × OptnsDb × OptnsDb},
        processLinesList o (discoveryInput setting fA fS fB maxFl maxKb)
          lines fdb odb vdb sdb = Except.ok r →
        r.1 = lines ∧ r.2.1.fFilemodified = fdb.fFilemodified ∧
          r.2.1.fMultilineActive = false := by
  intro lines
  induction lines with
  | nil =>
    intro fdb hM odb vdb sdb r h
    cases h
    exact ⟨rfl, rfl, hM⟩
  | cons l rest ih =>
    intro fdb hM odb vdb sdb r h
    simp only [processLinesList] at h
    split at h
    · cases h
    · rename_i nl fdb1 odb1 vdb1 sdb1 hpl
      split at h
      · cases h
      · rename_i nls fdb2 odb2 vdb2 sdb2 hrec
        cases h
        have h1 := processLine_discovery_inert hA hM hpl
        have h2 := ih h1.2.2 hrec
        refine ⟨?_, h2.2.1.trans h1.2.1, h2.2.2⟩
        simp only [List.cons.injEq]
        exact ⟨h1.1, h2.1⟩

end Optionset

namespace Optionset

/-- **C2.** Discover-only requests (availability / show-files mode, no
rename, no apply): for every file and every line, the per-line
processor reproduces the input line and leaves the modified flag as it
found it (so a file whose processing starts unmodified stays
unmodified), and the per-file processor returns the file's content
unchanged with `changed = false` — the file is never rewritten.
(Runs that abort — a failing variable-setting capture or a nested-stack
`KeyError` — write nothing either.) -/
theorem claim2_discovery_frame (o : RegexOracle) (setting : Str)
    (fA fS fB : Bool) (maxFl maxKb : Nat) (hA : (fA || fS) = true) :
    (∀ (line : Str) (fdb : FileVars) (odb vdb sdb : OptnsDb)
       (r : Str × FileVars × OptnsDb × OptnsDb × OptnsDb),
       fdb.fMultilineActive = false →
       processLine o (discoveryInput setting fA fS fB maxFl maxKb) line
         fdb odb vdb sdb = Except.ok r →
       r.1 = line ∧ r.2.1.fFilemodified = fdb.fFilemodified) ∧
    (∀ (path content : Str) (odb vdb sdb : OptnsDb)
       (r : FileOutcome × OptnsDb × OptnsDb × OptnsDb),
       processFile o (discoveryInput setting fA fS fB maxFl maxKb) path
         content odb vdb sdb = Except.ok r →
       ∀ out ch, r.1 = FileOutcome.processed out ch →
         out = content ∧ ch = false) := by
  constructor
  · intro line fdb odb vdb sdb r hM h
    exact ⟨(processLine_discovery_inert hA hM h).1,
      (processLine_discovery_inert hA hM h).2.1⟩
  · intro path content odb vdb sdb r h out ch hr1
    simp only [processFile] at h
    split at h
    · cases h; cases hr1
    · split at h
      · cases h; cases hr1
      · split at h
        · cases h; cases hr1
        · rename_i comInd hci
          split at h
          · cases h
          · rename_i nls fdb' odb' vdb' sdb' hpl
            have hd := processLinesList_discovery hA rfl hpl
            split at h
            · rename_i hmod
              rw [hd.2.1] at hmod
              cases hmod
            · cases h
              cases hr1
              exact ⟨rfl, rfl⟩

/-- Witness for the C2 discovery frame property: an `-a` run over the
one-line file `x // @a b\n` records the option in the availability
database but returns the content unchanged with `changed = false`. -/
theorem claim2_discovery_frame_witness :
    ((true || false) = true) ∧
    processFile noOracle (discoveryInput [] true false false 9999 10)
      "t".data "x // @a b\n".data [] [] []
      = Except.ok (FileOutcome.processed "x // @a b\n".data false,
          [("@a".data, [("b".data, PyVal.pyBool true)])], [], []) ∧
    ("x // @a b\n".data = "x // @a b\n".data ∧ false = false) :=
  ⟨rfl, rfl,
    (claim2_discovery_frame noOracle [] true false false 9999 10 rfl).2
      "t".data "x // @a b\n".data [] [] []
      (FileOutcome.processed "x // @a b\n".data false,
        [("@a".data, [("b".data, PyVal.pyBool true)])], [], [])
      rfl "x // @a b\n".data false rfl⟩

end Optionset

namespace Optionset

/-- **C10 (amended).** The per-line processor produces exactly one
output string per input line, in source order, and a rewritten file's
content is the concatenation of those outputs — lines are never
reordered or dropped.  (As the counterexample shows, an output string
can itself contain a newline when an unvalidated rename replacement
does, which then increases the rewritten file's line count.) -/
theorem claim10_line_structure_amended (o : RegexOracle) (inp : InputDb) :
    (∀ (lines : List Str) (fdb : FileVars) (odb vdb sdb : OptnsDb)
       (r : List Str × FileVars × OptnsDb × OptnsDb × OptnsDb),
       processLinesList o inp lines fdb odb vdb sdb = Except.ok r →
       r.1.length = lines.length) ∧
    (∀ (path content : Str) (odb vdb sdb : OptnsDb) (out : Str)
       (d1 d2 d3 : OptnsDb),
       processFile o inp path content odb vdb sdb
         = Except.ok (FileOutcome.processed out true, d1, d2, d3) →
       ∃ ys : List Str, ys.length = (splitLines content).length ∧
         out = ys.flatten) := by
  have hlen : ∀ (lines : List Str) (fdb : FileVars) (odb vdb sdb : OptnsDb)
      (r : List Str × FileVars × OptnsDb × OptnsDb × OptnsDb),
      processLinesList o inp lines fdb odb vdb sdb = Except.ok r →
      r.1.length = lines.length := by
    intro lines
    induction lines with
    | nil => intro fdb odb vdb sdb r h; cases h; rfl
    | cons l rest ih =>
      intro fdb odb vdb sdb r h
      simp only [processLinesList] at h
      split at h
      · cases h
      · rename_i nl fdb1 odb1 vdb1 sdb1 hpl
        split at h
        · cases h
        · rename_i nls fdb2 odb2 vdb2 sdb2 hrec
          cases h
          simpa using ih fdb1 odb1 vdb1 sdb1 _ hrec
  refine ⟨hlen, ?_⟩
  intro path content odb vdb sdb out d1 d2 d3 h
  simp only [processFile] at h
  split at h
  · cases h
  · split at h
    · cases h
    · split at h
      · cases h
      · rename_i comInd hci
        split at h
        · cases h
        · rename_i nls fdb' odb' vdb' sdb' hpl
          split at h
          · cases h
            exact ⟨nls, hlen _ _ _ _ _ _ hpl, rfl⟩
          · cases h

end Optionset

namespace Optionset

/-- Witness for the amended C10 structure law: one apply-mode run over
a one-line file yields exactly one output line. -/
theorem claim10_line_structure_amended_witness :
    processLinesList noOracle (applyInput "@".data "a".data "on".data 9999 10)
      ["x // @a b\n".data]
      ⟨"f".data, false, false, none, 0, 0, "//".data, []⟩ [] [] []
      = Except.ok (["//x // @a b\n".data],
          ⟨"f".data, true, false, none, 0, 0, "//".data, []⟩, [], [], []) ∧
    (["//x // @a b\n".data] : List Str).length
      = (["x // @a b\n".data] : List Str).length :=
  ⟨rfl, (claim10_line_structure_amended noOracle
      (applyInput "@".data "a".data "on".data 9999 10)).1
      ["x // @a b\n".data]
      ⟨"f".data, false, false, none, 0, 0, "//".data, []⟩ [] [] []
      (["//x // @a b\n".data],
        ⟨"f".data, true, false, none, 0, 0, "//".data, []⟩, [], [], [])
      rfl⟩

end Optionset
